import Mathlib

/-
Verification of the KG-Agent skeleton (kg_agent/core.py).

The development shallowly embeds the four components of the package:

* `Graph` models the `networkx.DiGraph` instance held by `KGExecutor`:
  a node list plus a directed edge list keyed by (subject, object) and
  carrying the predicate as an attribute.  `Graph.add_edge` follows
  networkx `add_edge` (creates missing endpoints, overwrites the
  attribute of an existing edge), and `Graph.successorsE` follows
  networkx `DiGraph.successors`, which raises `NetworkXError` when the
  queried node is not in the digraph; errors are modelled with `Except`.
* `KnowledgeMemory` models the dict-backed store; Python values are
  modelled as `Option V` with `none` playing Python's `None`, so that
  `dict.get` (which returns `None` for a missing key) is `read`.
* `KGToolbox` models the name-to-callable registry; `call` raises
  `KeyError` for an unregistered name, modelled as `Except.error`.
* `KGAgent.plan` / `KGAgent.select_tool` / `KGAgent.run` model the stub
  planner, the always-`None` selector, and the bounded iteration loop
  `for i in range(max_iterations)`.  The loop is embedded by structural
  recursion over `List.range max_iterations`; besides the final memory
  and result, the embedding also counts tool invocations.
-/

set_option autoImplicit false

/-- A triple (subject, predicate, object), as accepted by `load_triples`. -/
abbrev Triple := String × String × String

/-- The directed graph held by `KGExecutor`: modelled as the node list and
the edge list of a `networkx.DiGraph`.  An edge entry is
(subject, object, predicate); edges are keyed by (subject, object). -/
structure Graph where
  nodes : List String
  edges : List (String × String × String)
deriving DecidableEq

/-- Add a node if absent (networkx keeps node insertion order). -/
def addNode (ns : List String) (n : String) : List String :=
  if n ∈ ns then ns else ns ++ [n]

/-- Insert or overwrite the edge keyed by (subject, object): networkx
`add_edge` updates the attribute dict of an existing edge in place and
appends a fresh edge otherwise. -/
def setEdge : List (String × String × String) → String → String → String →
    List (String × String × String)
  | [], s, o, p => [(s, o, p)]
  | e :: rest, s, o, p =>
    if e.1 = s ∧ e.2.1 = o then (s, o, p) :: rest else e :: setEdge rest s o p

/-- `networkx.DiGraph.add_edge(s, o, predicate=p)`: creates missing
endpoints as nodes and records the directed edge s→o labelled p. -/
def Graph.add_edge (g : Graph) (s o p : String) : Graph :=
  ⟨addNode (addNode g.nodes s) o, setEdge g.edges s o p⟩

/-- The empty `networkx.DiGraph()`. -/
def Graph.empty : Graph := ⟨[], []⟩

/-- The node set of the graph. -/
def Graph.nodeSet (g : Graph) : Finset String := g.nodes.toFinset

/-- Objects of the edges whose subject is `n` (successor list). -/
def listSucc (es : List (String × String × String)) (n : String) : List String :=
  (es.filter (fun e => e.1 == n)).map (fun e => e.2.1)

/-- The successor set of a node that is present in the graph. -/
def Graph.successorsOf (g : Graph) (n : String) : Finset String :=
  (listSucc g.edges n).toFinset

/-- The predicate stored on the edge (s, o), if that edge exists. -/
def lookupEdge : List (String × String × String) → String → String → Option String
  | [], _, _ => none
  | e :: rest, s, o => if e.1 = s ∧ e.2.1 = o then some e.2.2 else lookupEdge rest s o

/-- Number of edges keyed by (s, o). -/
def edgeCount (es : List (String × String × String)) (s o : String) : Nat :=
  es.countP (fun e => e.1 == s && e.2.1 == o)

/-- One layer of the breadth-first expansion in `query_neighbors`:
`for n in frontier: next_frontier.update(self.graph.successors(n))`.
networkx `successors` raises `NetworkXError` when a node of the frontier
is not in the digraph; otherwise the layer is the union of the
successor sets of the frontier. -/
def Graph.stepFrontier (g : Graph) (f : Finset String) : Except String (Finset String) :=
  if f ⊆ g.nodeSet then .ok (f.biUnion g.successorsOf)
  else .error "node is not in the digraph"

/-- The loop of `query_neighbors`: `depth` iterations, each replacing the
frontier by its successor layer and accumulating that layer into the
result set. -/
def Graph.queryAux (g : Graph) : Nat → Finset String → Finset String →
    Except String (Finset String)
  | 0, _, acc => .ok acc
  | d + 1, frontier, acc =>
    match g.stepFrontier frontier with
    | .error e => .error e
    | .ok nf => g.queryAux d nf (acc ∪ nf)

/-- The executor holding the graph. -/
structure KGExecutor where
  graph : Graph

/-- `KGExecutor.load_triples`: `for s, p, o in triples: add_edge(s, o, predicate=p)`. -/
def KGExecutor.load_triples (ex : KGExecutor) (triples : List Triple) : KGExecutor :=
  ⟨triples.foldl (fun g t => g.add_edge t.1 t.2.2 t.2.1) ex.graph⟩

/-- `KGExecutor.query_neighbors`: starts from `frontier = {node}`,
`neighbors = ∅`, and runs the layer loop `depth` times. -/
def KGExecutor.query_neighbors (ex : KGExecutor) (node : String) (depth : Nat) :
    Except String (Finset String) :=
  ex.graph.queryAux depth {node} ∅

/-- First value stored under a key in an association list. -/
def lookupStore {β : Type} : List (String × β) → String → Option β
  | [], _ => none
  | (k', v') :: rest, k => if k' = k then some v' else lookupStore rest k

/-- Upsert into an association list: a Python dict assignment
`d[k] = v` updates an existing key in place (keeping insertion order)
and appends a fresh key. -/
def writeStore {β : Type} : List (String × β) → String → β → List (String × β)
  | [], k, v => [(k, v)]
  | (k', v') :: rest, k, v =>
    if k' = k then (k, v) :: rest else (k', v') :: writeStore rest k v

/-- `KnowledgeMemory`: the dict `store`.  Stored Python values are
modelled as `Option V`, with `none` standing for Python `None`. -/
structure KnowledgeMemory (V : Type) where
  store : List (String × Option V)
deriving DecidableEq

/-- `KnowledgeMemory.read`: `self.store.get(key)` — the stored value, or
Python `None` when the key is absent. -/
def KnowledgeMemory.read {V : Type} (m : KnowledgeMemory V) (k : String) : Option V :=
  match lookupStore m.store k with
  | some v => v
  | none => none

/-- `KnowledgeMemory.write`: `self.store[key] = value`. -/
def KnowledgeMemory.write {V : Type} (m : KnowledgeMemory V) (k : String) (v : Option V) :
    KnowledgeMemory V :=
  ⟨writeStore m.store k v⟩

/-- `KGToolbox`: the dict `tools` mapping names to callables.  In the run
loop every tool is called on the question, so a tool is modelled as a
function from the question to a Python value. -/
structure KGToolbox (V : Type) where
  tools : List (String × (String → Option V))

/-- `KGToolbox.register`: `self.tools[name] = fn`. -/
def KGToolbox.register {V : Type} (tb : KGToolbox V) (name : String)
    (fn : String → Option V) : KGToolbox V :=
  ⟨writeStore tb.tools name fn⟩

/-- `KGToolbox.call`: raises `KeyError("Tool {name} not registered")` for an
unregistered name, otherwise forwards the argument and returns the
tool's result unmodified. -/
def KGToolbox.call {V : Type} (tb : KGToolbox V) (name : String) (arg : String) :
    Except String (Option V) :=
  match lookupStore tb.tools name with
  | none => .error ("Tool " ++ name ++ " not registered")
  | some f => .ok (f arg)

/-- The plan dict `{"raw": raw_output, "steps": []}` built by `KGAgent.plan`. -/
structure Plan where
  raw : String
  steps : List String
deriving DecidableEq

/-- `KGAgent.plan`: the llm is modelled as `Option (String → String)` —
`some gen` when it exposes a `generate` capability, `none` otherwise.
With a capability, `raw_output = llm.generate(prompt)`; without one,
`raw_output = "[]"`.  The steps list is always empty. -/
def KGAgent.plan (llm : Option (String → String)) (question : String) : Plan :=
  let prompt := "Plan steps for: " ++ question
  match llm with
  | some gen => ⟨gen prompt, []⟩
  | none => ⟨"[]", []⟩

/-- The shipped `KGAgent.select_tool` stub: always returns `None`. -/
def KGAgent.select_tool (_p : Plan) : Option String := none

/-- Observable outcome of `KGAgent.run`: the final memory, the returned
result (`none` is Python `None`, the absent-marker), and the number of
tool invocations performed. -/
structure RunOutcome (V : Type) where
  memory : KnowledgeMemory V
  result : Option V
  calls : Nat
deriving DecidableEq

/-- The body of `KGAgent.run`'s `for i in range(max_iterations)` loop,
recursing over the list of remaining iteration indices.  Each iteration
asks the selector for a tool name, stops at `None`, otherwise invokes
the tool on the question (a `KeyError` aborts the run), writes the
output to memory under `"step_" + str(i)` and remembers it as the
candidate result. -/
def KGAgent.runLoop {V : Type} (select : Plan → Option String) (tb : KGToolbox V)
    (question : String) (p : Plan) :
    List Nat → KnowledgeMemory V → Option V → Nat → Except String (RunOutcome V)
  | [], mem, result, calls => .ok ⟨mem, result, calls⟩
  | i :: rest, mem, result, calls =>
    match select p with
    | none => .ok ⟨mem, result, calls⟩
    | some name =>
      match tb.call name question with
      | .error e => .error e
      | .ok out =>
        KGAgent.runLoop select tb question p rest
          (mem.write ("step_" ++ toString i) out) out (calls + 1)

/-- `KGAgent.run`: plans once, then runs the iteration loop with
`result = None` initially, returning the last recorded result. -/
def KGAgent.run {V : Type} (llm : Option (String → String)) (select : Plan → Option String)
    (tb : KGToolbox V) (mem : KnowledgeMemory V) (question : String)
    (maxIterations : Nat) : Except String (RunOutcome V) :=
  KGAgent.runLoop select tb question (KGAgent.plan llm question)
    (List.range maxIterations) mem none 0

deriving instance DecidableEq for Except

/-! ### Helper lemmas on association-list stores -/

theorem lookupStore_writeStore_self {β : Type} (l : List (String × β)) (k : String) (v : β) :
    lookupStore (writeStore l k v) k = some v := by
  induction l with
  | nil => simp [writeStore, lookupStore]
  | cons p rest ih =>
    obtain ⟨k', v'⟩ := p
    by_cases h : k' = k
    · subst h
      simp [writeStore, lookupStore]
    · simp [writeStore, lookupStore, h, ih]

theorem lookupStore_eq_none {β : Type} (l : List (String × β)) (k : String)
    (h : ∀ p ∈ l, p.1 ≠ k) : lookupStore l k = none := by
  induction l with
  | nil => rfl
  | cons p rest ih =>
    obtain ⟨k', v'⟩ := p
    have hk : k' ≠ k := h ⟨k', v'⟩ (List.mem_cons_self _ _)
    simp only [lookupStore, if_neg hk]
    exact ih fun q hq => h q (List.mem_cons_of_mem _ hq)

theorem read_write_self {V : Type} (m : KnowledgeMemory V) (k : String) (v : Option V) :
    (m.write k v).read k = v := by
  simp [KnowledgeMemory.read, KnowledgeMemory.write, lookupStore_writeStore_self]

theorem read_never_written {V : Type} (m : KnowledgeMemory V) (k : String)
    (h : ∀ p ∈ m.store, p.1 ≠ k) : m.read k = none := by
  simp [KnowledgeMemory.read, lookupStore_eq_none m.store k h]

/-! ### Helper lemmas on the edge list -/

theorem lookupEdge_setEdge_self (l : List (String × String × String)) (s o p : String) :
    lookupEdge (setEdge l s o p) s o = some p := by
  induction l with
  | nil => simp [setEdge, lookupEdge]
  | cons e rest ih =>
    by_cases h : e.1 = s ∧ e.2.1 = o
    · simp [setEdge, lookupEdge, h]
    · simp [setEdge, lookupEdge, h, ih]

theorem setEdge_setEdge (l : List (String × String × String)) (s o p₁ p₂ : String) :
    setEdge (setEdge l s o p₁) s o p₂ = setEdge l s o p₂ := by
  induction l with
  | nil => simp [setEdge]
  | cons e rest ih =>
    by_cases h : e.1 = s ∧ e.2.1 = o
    · simp [setEdge, h]
    · simp [setEdge, h, ih]

theorem setEdge_length (l : List (String × String × String)) (s o p₁ p₂ : String) :
    (setEdge l s o p₁).length = (setEdge l s o p₂).length := by
  induction l with
  | nil => rfl
  | cons e rest ih =>
    by_cases h : e.1 = s ∧ e.2.1 = o
    · simp [setEdge, h]
    · simp [setEdge, h, ih]

theorem listSucc_cons (e : String × String × String) (l : List (String × String × String))
    (n : String) :
    listSucc (e :: l) n = if e.1 == n then e.2.1 :: listSucc l n else listSucc l n := by
  simp only [listSucc, List.filter_cons]
  by_cases h : (e.1 == n) = true
  · simp [h]
  · simp [h]

theorem listSucc_setEdge (l : List (String × String × String)) (s o p₁ p₂ n : String) :
    listSucc (setEdge l s o p₁) n = listSucc (setEdge l s o p₂) n := by
  induction l with
  | nil => simp [setEdge, listSucc_cons]
  | cons e rest ih =>
    by_cases h : e.1 = s ∧ e.2.1 = o
    · simp [setEdge, h, listSucc_cons]
    · simp only [setEdge, if_neg h, listSucc_cons, ih]

theorem edgeCount_cons (e : String × String × String) (rest : List (String × String × String))
    (s o : String) :
    edgeCount (e :: rest) s o
      = edgeCount rest s o + if e.1 == s && e.2.1 == o then 1 else 0 := by
  simp [edgeCount, List.countP_cons]

theorem edgeCount_setEdge (l : List (String × String × String)) (s o p : String)
    (h : edgeCount l s o ≤ 1) : edgeCount (setEdge l s o p) s o = 1 := by
  induction l with
  | nil => simp [setEdge, edgeCount]
  | cons e rest ih =>
    by_cases he : e.1 = s ∧ e.2.1 = o
    · have hmatch : (e.1 == s && e.2.1 == o) = true := by
        simp [Bool.and_eq_true, beq_iff_eq, he.1, he.2]
      rw [edgeCount_cons, hmatch] at h
      simp only [setEdge, if_pos he]
      rw [edgeCount_cons]
      simp at h ⊢
      omega
    · have hmatch : (e.1 == s && e.2.1 == o) = false := by
        cases hb : (e.1 == s && e.2.1 == o) with
        | false => rfl
        | true => exact absurd (by simpa [Bool.and_eq_true, beq_iff_eq] using hb) he
      rw [edgeCount_cons, hmatch] at h
      simp at h
      have hres := ih h
      simp only [setEdge, if_neg he]
      rw [edgeCount_cons, hmatch]
      simp [hres]

/-! ### Claim theorems -/

/-- C1 (corrected), counterexample to the claim as stated: after loading the
single triple ("A","r1","B"), the node "Z" is absent from the graph, yet
`query_neighbors("Z", 1)` does not return an empty result set — it raises
the networkx missing-node error, because the frontier loop calls
`self.graph.successors("Z")` and networkx `DiGraph.successors` raises
`NetworkXError` for a node that is not in the digraph. -/
theorem C1_counterexample :
    "Z" ∉ (KGExecutor.load_triples ⟨Graph.empty⟩ [("A", "r1", "B")]).graph.nodeSet ∧
    ¬ ((KGExecutor.load_triples ⟨Graph.empty⟩ [("A", "r1", "B")]).query_neighbors "Z" 1
        = .ok ∅) ∧
    (KGExecutor.load_triples ⟨Graph.empty⟩ [("A", "r1", "B")]).query_neighbors "Z" 1
        = .error "node is not in the digraph" := by decide

/-- C1 (amended): for every node absent from the graph, `query_neighbors`
returns the empty set at depth 0 (the loop body never runs), and for every
depth ≥ 1 it raises the networkx missing-node error instead of returning an
empty result set. -/
theorem C1_missing_node (ex : KGExecutor) (node : String) (depth : Nat)
    (h : node ∉ ex.graph.nodeSet) :
    ex.query_neighbors node depth =
      if depth = 0 then .ok ∅ else .error "node is not in the digraph" := by
  cases depth with
  | zero => rfl
  | succ d =>
    have hsub : ¬ ({node} : Finset String) ⊆ ex.graph.nodeSet := by
      rw [Finset.singleton_subset_iff]
      exact h
    simp [KGExecutor.query_neighbors, Graph.queryAux, Graph.stepFrontier, hsub]

/-- C1 witness: the amended statement evaluated on a concrete graph,
missing node "Z" and depth 2. -/
theorem C1_missing_node_witness :
    (KGExecutor.load_triples ⟨Graph.empty⟩ [("A", "r1", "B")]).query_neighbors "Z" 2 =
      if (2 : Nat) = 0 then .ok ∅ else .error "node is not in the digraph" :=
  C1_missing_node (KGExecutor.load_triples ⟨Graph.empty⟩ [("A", "r1", "B")]) "Z" 2 (by decide)

/-- C2: loading exactly [("A","r1","B"), ("B","r2","C")] into an empty graph,
`query_neighbors("A", 1)` returns exactly {"B"} and `query_neighbors("A", 2)`
returns exactly {"B","C"} — the union of every layer's frontier for hops
1..depth, not only the final layer. -/
theorem C2_layer_union :
    (KGExecutor.load_triples ⟨Graph.empty⟩
        [("A", "r1", "B"), ("B", "r2", "C")]).query_neighbors "A" 1 = .ok {"B"} ∧
    (KGExecutor.load_triples ⟨Graph.empty⟩
        [("A", "r1", "B"), ("B", "r2", "C")]).query_neighbors "A" 2 = .ok {"B", "C"} := by
  decide

/-- C3: for every question and every max_iterations, running the agent with a
selector that signals termination on the first iteration (as the shipped
`select_tool` stub always does) returns the absent-marker (Python `None`),
performs zero tool invocations, and leaves the (initially empty) memory
empty. -/
theorem C3_stub_selector_run {V : Type} (llm : Option (String → String)) (tb : KGToolbox V)
    (q : String) (maxIter : Nat) (select : Plan → Option String)
    (hsel : ∀ p, select p = none) :
    KGAgent.run llm select tb ⟨[]⟩ q maxIter = .ok ⟨⟨[]⟩, none, 0⟩ := by
  unfold KGAgent.run
  cases hr : List.range maxIter with
  | nil => rfl
  | cons i rest => simp [KGAgent.runLoop, hsel]

/-- C3 witness: the shipped stub `KGAgent.select_tool` on a concrete run. -/
theorem C3_stub_selector_run_witness :
    KGAgent.run none KGAgent.select_tool (⟨[]⟩ : KGToolbox Nat) ⟨[]⟩ "who" 10 =
      .ok ⟨⟨[]⟩, none, 0⟩ :=
  C3_stub_selector_run none ⟨[]⟩ "who" 10 KGAgent.select_tool (fun _ => rfl)

/-- C4: for every name absent from the toolbox registry, `call` fails with the
KeyError "Tool {name} not registered"; for every registered name, `call`
forwards the argument to the registered operation and returns its result
unmodified. -/
theorem C4_toolbox_call {V : Type} (tb : KGToolbox V) (name arg : String) :
    ((∀ p ∈ tb.tools, p.1 ≠ name) →
      tb.call name arg = .error ("Tool " ++ name ++ " not registered")) ∧
    (∀ f : String → Option V, lookupStore tb.tools name = some f →
      tb.call name arg = .ok (f arg)) := by
  constructor
  · intro h
    unfold KGToolbox.call
    rw [lookupStore_eq_none tb.tools name h]
  · intro f hf
    unfold KGToolbox.call
    rw [hf]

/-- C4 witness: a toolbox holding only "x"; invoking "y" fails with the
KeyError, invoking "x" returns the registered operation's result. -/
theorem C4_toolbox_call_witness :
    ((KGToolbox.register ⟨[]⟩ "x" (fun s => some s.length)).call "y" "abc"
        = .error "Tool y not registered") ∧
    ((KGToolbox.register ⟨[]⟩ "x" (fun s => some s.length)).call "x" "abc"
        = .ok (some 3)) :=
  ⟨(C4_toolbox_call (KGToolbox.register ⟨[]⟩ "x" (fun s => some s.length)) "y" "abc").1
      (by
        intro p hp
        have hx : p = ("x", fun s : String => some s.length) := by
          simpa [KGToolbox.register, writeStore] using hp
        rw [hx]
        decide),
    (C4_toolbox_call (KGToolbox.register ⟨[]⟩ "x" (fun s => some s.length)) "x" "abc").2
      (fun s => some s.length) rfl⟩

/-- C5: with max_iterations = 3 and a selector that never signals termination
during the run (it always picks `name`, which is registered as `f`), the
agent performs exactly 3 tool invocations, writes exactly the 3 memory
entries step_0, step_1, step_2, and returns the output of the 3rd
invocation. -/
theorem C5_three_iterations {V : Type} (llm : Option (String → String))
    (select : Plan → Option String) (tb : KGToolbox V) (q name : String)
    (f : String → Option V)
    (hsel : select (KGAgent.plan llm q) = some name)
    (hf : lookupStore tb.tools name = some f) :
    KGAgent.run llm select tb ⟨[]⟩ q 3 =
      .ok ⟨⟨[("step_0", f q), ("step_1", f q), ("step_2", f q)]⟩, f q, 3⟩ := by
  have hcall : tb.call name q = .ok (f q) := by
    unfold KGToolbox.call
    rw [hf]
  unfold KGAgent.run
  rw [show List.range 3 = [0, 1, 2] from rfl]
  simp only [KGAgent.runLoop, hsel, hcall]
  rfl

/-- C5 witness: a concrete selector always picking the registered tool "t". -/
theorem C5_three_iterations_witness :
    KGAgent.run none (fun _ => some "t") (⟨[("t", fun _ => some 7)]⟩ : KGToolbox Nat)
        ⟨[]⟩ "q" 3 =
      .ok ⟨⟨[("step_0", some 7), ("step_1", some 7), ("step_2", some 7)]⟩, some 7, 3⟩ :=
  C5_three_iterations none (fun _ => some "t") ⟨[("t", fun _ => some 7)]⟩ "q" "t"
    (fun _ => some 7) rfl rfl

/-- C6: memory write followed by read of the same key returns exactly the
value written, and read of a never-written key returns the absent-marker
(Python `None`) rather than raising. -/
theorem C6_memory_roundtrip {V : Type} (m : KnowledgeMemory V) (k : String) (v : Option V)
    (k' : String) (h : ∀ p ∈ m.store, p.1 ≠ k') :
    (m.write k v).read k = v ∧ m.read k' = none :=
  ⟨read_write_self m k v, read_never_written m k' h⟩

/-- C6 witness: round-trip and missing-key read on a concrete memory. -/
theorem C6_memory_roundtrip_witness :
    ((⟨[("x", some 3)]⟩ : KnowledgeMemory Nat).write "a" (some 1)).read "a" = some 1 ∧
    (⟨[("x", some 3)]⟩ : KnowledgeMemory Nat).read "b" = none :=
  C6_memory_roundtrip ⟨[("x", some 3)]⟩ "a" (some 1) "b" (by decide)

/-- C7: for every node (whether or not present in the graph) and every loaded
graph, `query_neighbors(node, 0)` returns the empty set: the range-0 loop
never runs and the accumulated neighbor set stays empty. -/
theorem C7_depth_zero (ex : KGExecutor) (node : String) :
    ex.query_neighbors node 0 = .ok ∅ := rfl

/-- C8: re-loading a triple with the same (subject, object) but a different
predicate overwrites the stored predicate without creating a second edge:
the stored predicate becomes the new one, the edge list does not grow,
there is still exactly one (s, o) edge, and the successor set of the
subject is unchanged. -/
theorem C8_reload_overwrites (ex : KGExecutor) (s o p₁ p₂ : String)
    (h : edgeCount ex.graph.edges s o ≤ 1) :
    lookupEdge ((ex.load_triples [(s, p₁, o)]).load_triples [(s, p₂, o)]).graph.edges s o
        = some p₂ ∧
    ((ex.load_triples [(s, p₁, o)]).load_triples [(s, p₂, o)]).graph.edges.length
        = (ex.load_triples [(s, p₁, o)]).graph.edges.length ∧
    edgeCount ((ex.load_triples [(s, p₁, o)]).load_triples [(s, p₂, o)]).graph.edges s o = 1 ∧
    ((ex.load_triples [(s, p₁, o)]).load_triples [(s, p₂, o)]).graph.successorsOf s
        = (ex.load_triples [(s, p₁, o)]).graph.successorsOf s := by
  have h1 : (ex.load_triples [(s, p₁, o)]).graph.edges = setEdge ex.graph.edges s o p₁ := rfl
  have h2 : ((ex.load_triples [(s, p₁, o)]).load_triples [(s, p₂, o)]).graph.edges
      = setEdge (setEdge ex.graph.edges s o p₁) s o p₂ := rfl
  refine ⟨?_, ?_, ?_, ?_⟩
  · rw [h2, setEdge_setEdge, lookupEdge_setEdge_self]
  · rw [h2, h1, setEdge_setEdge]
    exact setEdge_length ex.graph.edges s o p₂ p₁
  · rw [h2, setEdge_setEdge]
    exact edgeCount_setEdge ex.graph.edges s o p₂ h
  · simp only [Graph.successorsOf]
    rw [h2, h1, setEdge_setEdge, listSucc_setEdge ex.graph.edges s o p₂ p₁ s]

/-- C8 witness: reloading ("A", r2, "B") over ("A", r1, "B") on the empty
graph. -/
theorem C8_reload_overwrites_witness :
    lookupEdge (((⟨Graph.empty⟩ : KGExecutor).load_triples
        [("A", "r1", "B")]).load_triples [("A", "r2", "B")]).graph.edges "A" "B"
        = some "r2" ∧
    (((⟨Graph.empty⟩ : KGExecutor).load_triples
        [("A", "r1", "B")]).load_triples [("A", "r2", "B")]).graph.edges.length
        = ((⟨Graph.empty⟩ : KGExecutor).load_triples [("A", "r1", "B")]).graph.edges.length ∧
    edgeCount (((⟨Graph.empty⟩ : KGExecutor).load_triples
        [("A", "r1", "B")]).load_triples [("A", "r2", "B")]).graph.edges "A" "B" = 1 ∧
    (((⟨Graph.empty⟩ : KGExecutor).load_triples
        [("A", "r1", "B")]).load_triples [("A", "r2", "B")]).graph.successorsOf "A"
        = ((⟨Graph.empty⟩ : KGExecutor).load_triples [("A", "r1", "B")]).graph.successorsOf "A" :=
  C8_reload_overwrites ⟨Graph.empty⟩ "A" "B" "r1" "r2" (by decide)

/-- C9: for an llm lacking a generate capability, `plan` raises no error and
returns the empty plan, raw output "[]" with an empty steps list; and for
every llm, the returned plan's steps list is always empty. -/
theorem C9_plan_stub :
    (∀ q : String, KGAgent.plan none q = ⟨"[]", []⟩) ∧
    (∀ (llm : Option (String → String)) (q : String), (KGAgent.plan llm q).steps = []) := by
  refine ⟨fun q => rfl, fun llm q => ?_⟩
  cases llm <;> rfl

/-- C10: memory's absent-marker is Python `None`: after writing `None` under a
key, reading that key gives the same result as reading a never-written key,
so the read interface cannot distinguish a stored `None` from an absent
key. -/
theorem C10_none_indistinguishable {V : Type} (m : KnowledgeMemory V) (k k' : String)
    (h : ∀ p ∈ m.store, p.1 ≠ k') :
    (m.write k (none : Option V)).read k = m.read k' ∧
    (m.write k (none : Option V)).read k = none := by
  have h1 := read_write_self m k (none : Option V)
  have h2 := read_never_written m k' h
  exact ⟨h1.trans h2.symm, h1⟩

/-- C10 witness: storing `None` under "a" reads back the same as the
never-written key "b" on a concrete memory. -/
theorem C10_none_indistinguishable_witness :
    ((⟨[("x", some 3)]⟩ : KnowledgeMemory Nat).write "a" none).read "a"
        = (⟨[("x", some 3)]⟩ : KnowledgeMemory Nat).read "b" ∧
    ((⟨[("x", some 3)]⟩ : KnowledgeMemory Nat).write "a" none).read "a" = none :=
  C10_none_indistinguishable ⟨[("x", some 3)]⟩ "a" "b" (by decide)
